import Mathlib

/-!
Verification of the OCR result-ingestion pipeline of the tavern menu
application.  The definitions below are a shallow embedding of the
TypeScript source:

* `parsePrice`, `determineTags`, `parseTextMenu`, `parseOCRResults`
  embed the functions of the same names in `server/src/routes/ocr.ts`;
* `DatabaseService.bulkUpsertMenuItems` / `logMenuUpdate` embed the
  corresponding methods of `server/src/services/database.ts`;
* `processHandler` embeds the `POST /process` route handler of
  `server/src/routes/ocr.ts`, with the external collaborators (image
  preprocessing, the recognition HTTP call, the storage upsert and the
  audit insert) supplied as explicit oracle values.

Modelling conventions: JavaScript strings are Lean `String`s and all
string manipulation is written out over `List Char` (JS `trim`, `split`,
`includes`, `toLowerCase` act on code units; for the ASCII data handled
here the `List Char` model coincides).  JavaScript numbers are the type
`JSNumber`: an exact rational for a finite value plus the symbolic
non-finite values `nan`, `inf`, `negInf` (numerals in the source are
small and exactly representable, so rationals are faithful).  `null` /
`undefined` / absent fields are `Option.none`.  `Date.now()` is a `Nat`
parameter `now`, fixed per batch.  The `created_at` / `updated_at`
timestamp strings carry no information beyond `now` and no claim
mentions them, so they are elided from the draft-item record.
-/

/-- Model of a JavaScript number: a finite rational or one of the
symbolic non-finite values. -/
inductive JSNumber where
  | finite (q : ℚ)
  | nan
  | inf
  | negInf
deriving DecidableEq, Repr

/-- Input to `parsePrice`: JS `number`, `string`, or a falsy non-string
non-number value (`null` / `undefined` / absent field). -/
inductive PriceInput where
  | num (x : JSNumber)
  | str (s : String)
  | absent
deriving DecidableEq, Repr

/-- JS `String.prototype.trim` over the character list: drop leading and
trailing whitespace. -/
def jsTrimList (cs : List Char) : List Char :=
  ((cs.dropWhile Char.isWhitespace).reverse.dropWhile Char.isWhitespace).reverse

/-- JS `trim` on strings. -/
def jsTrim (s : String) : String :=
  String.mk (jsTrimList s.toList)

/-- JS `text.split('\n')` over the character list. -/
def splitOnNl : List Char → List (List Char)
  | [] => [[]]
  | c :: rest =>
    if c = '\n' then [] :: splitOnNl rest
    else
      match splitOnNl rest with
      | [] => [[c]]
      | l :: ls => (c :: l) :: ls

/-- JS `text.split('\n')` on strings. -/
def jsSplitLines (s : String) : List String :=
  (splitOnNl s.toList).map String.mk

/-- Does `pat` occur as a contiguous sublist of `cs`?  (JS
`String.prototype.includes`.) -/
def listIncludes (pat : List Char) : List Char → Bool
  | [] => pat.isEmpty
  | c :: rest => pat.isPrefixOf (c :: rest) || listIncludes pat rest

/-- JS `hay.includes(needle)`. -/
def jsIncludes (hay needle : String) : Bool :=
  listIncludes needle.toList hay.toList

/-- JS `toLowerCase` (ASCII-faithful). -/
def jsToLower (s : String) : String :=
  String.mk (s.toList.map Char.toLower)

/-- Numeric value of a digit list read in base 10. -/
def digitsVal (cs : List Char) : Nat :=
  cs.foldl (fun a c => 10 * a + (c.toNat - 48)) 0

/-- JS `parseFloat` restricted to strings made of digits and periods
(the only strings it is applied to in the source): read a maximal run
of leading digits, then an optional period followed by a maximal run
of digits; `none` models `NaN` (no digit consumed at all).  The value
`d1.d2` is the exact rational `(d1 * 10^k + d2) / 10^k`. -/
def parseFloatDigitsDots (s : String) : Option ℚ :=
  let cs := s.toList
  let intDigits := cs.takeWhile Char.isDigit
  let rest := cs.drop intDigits.length
  match rest with
  | '.' :: rest2 =>
    let fracDigits := rest2.takeWhile Char.isDigit
    if intDigits.isEmpty && fracDigits.isEmpty then none
    else
      some (mkRat
        ((digitsVal intDigits * 10 ^ fracDigits.length + digitsVal fracDigits : Nat) : Int)
        (10 ^ fracDigits.length))
  | _ =>
    if intDigits.isEmpty then none
    else some (mkRat ((digitsVal intDigits : Nat) : Int) 1)

/-- JS `parseFloat` as a total function into `JSNumber` (`NaN` when no
digits parse). -/
def jsParseFloat (s : String) : JSNumber :=
  match parseFloatDigitsDots s with
  | some q => .finite q
  | none => .nan

/-- Embeds `parsePrice` (`server/src/routes/ocr.ts` lines 289-297):
a `typeof priceStr === 'number'` input is returned unchanged (no
finiteness test in the source); a falsy input (`null`, `undefined`,
`""`) yields `null`; a string is stripped of every character other than
digits and periods via `replace(/[^0-9.]/g, '')`, parsed with
`parseFloat`, and `null` is returned when the result `isNaN`. -/
def parsePrice : PriceInput → Option JSNumber
  | .num x => some x
  | .absent => none
  | .str s =>
    if s = "" then none
    else
      let cleaned := String.mk (s.toList.filter (fun c => c.isDigit || c = '.'))
      match jsParseFloat cleaned with
      | .nan => none
      | x => some x

/-- The four menu types of `MENU_TYPE_MAPPING`
(`server/src/routes/ocr.ts` lines 28-33). -/
inductive MenuType where
  | wine_list
  | featured_menu
  | signature_cocktails
  | tavern_menu
deriving DecidableEq, Repr

/-- The string naming each menu type. -/
def MenuType.toStr : MenuType → String
  | .wine_list => "wine_list"
  | .featured_menu => "featured_menu"
  | .signature_cocktails => "signature_cocktails"
  | .tavern_menu => "tavern_menu"

/-- Lookup in `MENU_TYPE_MAPPING`: which strings are valid menu types. -/
def MENU_TYPE_MAPPING (s : String) : Option MenuType :=
  if s = "wine_list" then some .wine_list
  else if s = "featured_menu" then some .featured_menu
  else if s = "signature_cocktails" then some .signature_cocktails
  else if s = "tavern_menu" then some .tavern_menu
  else none

/-- JS string coercion of a possibly-undefined field used as the left
operand of `+`: `undefined + ' '` yields the string `"undefined "`. -/
def jsPlusCoerce : Option String → String
  | some s => s
  | none => "undefined"

/-- Embeds `determineTags` (`server/src/routes/ocr.ts` lines 300-332).
It receives the raw `name` and `description` fields of the upstream
record (the source passes the raw `item`, not the normalized draft) and
the menu type, and pushes tags in source order. -/
def determineTags (name description : Option String) (menuType : MenuType) :
    List String :=
  let itemText := jsToLower (jsPlusCoerce name ++ " " ++ description.getD "")
  let tags : List String := []
  let tags :=
    if menuType = .signature_cocktails then
      let t := tags ++ ["signature"]
      if jsIncludes itemText "premium" || jsIncludes itemText "top shelf" then
        t ++ ["premium"]
      else t
    else tags
  let tags :=
    if menuType = .wine_list then
      let t :=
        if jsIncludes itemText "reserve" || jsIncludes itemText "vintage" then
          tags ++ ["reserve"]
        else tags
      let t := if jsIncludes itemText "red" then t ++ ["red"] else t
      let t := if jsIncludes itemText "white" then t ++ ["white"] else t
      if jsIncludes itemText "sparkling" || jsIncludes itemText "champagne" then
        t ++ ["sparkling"]
      else t
    else tags
  let tags :=
    if jsIncludes itemText "featured" || jsIncludes itemText "special" then
      tags ++ ["featured"]
    else tags
  if jsIncludes itemText "new" || jsIncludes itemText "limited" then
    tags ++ ["limited"]
  else tags

/-- A draft menu item as assembled by the extraction code.  The
`created_at` / `updated_at` ISO strings (functions of the batch clock
alone) are elided; every other field of the object literals in the
source is present. -/
structure DraftItem where
  id : String
  name : String
  description : Option String
  price : Option JSNumber
  category : String
  subcategory : Option String
  available : Bool
  tags : List String
deriving DecidableEq, Repr

/-- The template `` `${menuType}_manual_${Date.now()}_${index}` `` of the
fallback text path. -/
def mkManualId (menuType : String) (now : Nat) (index : Nat) : String :=
  menuType ++ "_manual_" ++ toString now ++ "_" ++ toString index

/-- The template `` `${menuType}_ocr_${Date.now()}_${index}` `` of the
structured path. -/
def mkOcrId (menuType : String) (now : Nat) (index : Nat) : String :=
  menuType ++ "_ocr_" ++ toString now ++ "_" ++ toString index

/-- After `\$` and a maximal digit run `ds`, the regex
`/\$([0-9]+(?:\.[0-9]{2})?)/` optionally consumes a period followed by
exactly two digits; otherwise the captured group is just `ds`. -/
def captureAfterDigits (ds rest2 : List Char) : List Char :=
  match rest2 with
  | '.' :: a :: b :: _ =>
    if a.isDigit && b.isDigit then ds ++ ['.', a, b] else ds
  | _ => ds

/-- First match of `/\$([0-9]+(?:\.[0-9]{2})?)/` in the line, returning
the captured group: scan left to right for a `$` immediately followed
by a digit. -/
def findPriceMatch : List Char → Option (List Char)
  | [] => none
  | c :: rest =>
    if c = '$' then
      let ds := rest.takeWhile Char.isDigit
      if ds.isEmpty then findPriceMatch rest
      else some (captureAfterDigits ds (rest.drop ds.length))
    else findPriceMatch rest

/-- Embeds `trimmedLine.replace(/\$[0-9]+(?:\.[0-9]{2})?.*$/, '')`: everything
from the first `$`-followed-by-a-digit to the end of the line is
deleted (the trailing `.*$` eats the rest of the line). -/
def nameBeforePrice : List Char → List Char
  | [] => []
  | c :: rest =>
    if c = '$' && !(rest.takeWhile Char.isDigit).isEmpty then []
    else c :: nameBeforePrice rest

/-- Embeds `if (currentItem && currentItem.name) items.push(currentItem)`:
flush the item being built, provided its name is truthy. -/
def flushCurrent (items : List DraftItem) : Option DraftItem → List DraftItem
  | some cur => if cur.name ≠ "" then items ++ [cur] else items
  | none => items

/-- One iteration of the `lines.forEach((line, index) => ...)` loop of
`parseTextMenu` (`server/src/routes/ocr.ts` lines 247-278).  The state
is the accumulated `items` array plus the optional `currentItem`. -/
def stepLine (menuType : MenuType) (now : Nat)
    (st : List DraftItem × Option DraftItem) (p : Nat × String) :
    List DraftItem × Option DraftItem :=
  let trimmedLine := jsTrim p.2
  match findPriceMatch trimmedLine.toList with
  | some cap =>
    if trimmedLine.length > 5 then
      (flushCurrent st.1 st.2,
        some { id := mkManualId menuType.toStr now p.1,
               name := jsTrim (String.mk (nameBeforePrice trimmedLine.toList)),
               description := none,
               price := some (jsParseFloat (String.mk cap)),
               category := menuType.toStr,
               subcategory := none,
               available := true,
               tags := [] })
    else st
  | none =>
    match st.2 with
    | some cur =>
      if trimmedLine.length > 10 then
        (st.1, some { cur with
          description := some
            ((match cur.description with
              | some d => d ++ " "
              | none => "") ++ trimmedLine) })
      else st
    | none => st

/-- Embeds `parseTextMenu` (`server/src/routes/ocr.ts` lines 241-286):
split on newlines, keep the lines whose trimmed form is non-empty,
run the line state machine over them (the `forEach` index ranges over
the kept lines), then flush a pending item. -/
def parseTextMenu (text : String) (menuType : MenuType) (now : Nat) :
    List DraftItem :=
  let lines := (jsSplitLines text).filter (fun line => (jsTrim line).length > 0)
  let st := lines.enum.foldl (stepLine menuType now) ([], none)
  flushCurrent st.1 st.2

/-- The fields of a well-formed structured upstream record that the
extraction code reads. -/
structure StructuredRecord where
  name : Option String
  title : Option String
  description : Option String
  desc : Option String
  price : PriceInput
  category : Option String
deriving DecidableEq, Repr

/-- An element of the upstream structured-records array: either a
well-formed record, or a value (such as `null`) on which the first
field access raises a `TypeError`. -/
inductive OCREntry where
  | record (r : StructuredRecord)
  | bad
deriving DecidableEq, Repr

/-- JS `a || b` where `a` is an optional string and `b` a string:
the empty string is falsy. -/
def jsOrStr (a : Option String) (b : String) : String :=
  match a with
  | some s => if s = "" then b else s
  | none => b

/-- JS truthiness of an optional string, as an optional string
(`x || null` collapses `""` and absence to `null`). -/
def truthyOpt : Option String → Option String
  | some s => if s = "" then none else some s
  | none => none

/-- JS `a || b || null` on two optional string fields. -/
def jsOrOpt (a b : Option String) : Option String :=
  match truthyOpt a with
  | some s => some s
  | none => truthyOpt b

/-- The object literal built for one structured record
(`server/src/routes/ocr.ts` lines 212-223).  Note that `determineTags`
receives the raw record fields, not the normalized name. -/
def extractRec (menuType : MenuType) (now : Nat) (index : Nat)
    (r : StructuredRecord) : DraftItem :=
  { id := mkOcrId menuType.toStr now index,
    name := jsOrStr r.name (jsOrStr r.title ("Item " ++ toString (index + 1))),
    description := jsOrOpt r.description r.desc,
    price := parsePrice r.price,
    category := menuType.toStr,
    subcategory := truthyOpt r.category,
    available := true,
    tags := determineTags r.name r.description menuType }

/-- The `structuredData.forEach(...)` loop under the surrounding
`try`: entries are mapped in order with their index; at the first entry
whose field access raises, the exception aborts the loop, the `catch`
logs it, and the drafts accumulated so far survive. -/
def goStructured (menuType : MenuType) (now : Nat) :
    Nat → List OCREntry → List DraftItem
  | _, [] => []
  | i, .record r :: rest =>
    extractRec menuType now i r :: goStructured menuType now (i + 1) rest
  | _, .bad :: _ => []

/-- The raw upstream OCR payload: the two textual fields and the two
possible structured-array fields the parser probes. -/
structure OCRPayload where
  text : Option String
  extracted_text : Option String
  structured_data : Option (List OCREntry)
  items : Option (List OCREntry)
deriving DecidableEq, Repr

/-- Embeds `ocrData.text || ocrData.extracted_text || ''`. -/
def payloadText (p : OCRPayload) : String :=
  jsOrStr p.text (jsOrStr p.extracted_text "")

/-- Embeds `ocrData.structured_data || ocrData.items || []`: an array is
truthy even when empty, so a present empty `structured_data` shadows
`items`. -/
def payloadStructured (p : OCRPayload) : List OCREntry :=
  match p.structured_data with
  | some l => l
  | none => p.items.getD []

/-- The filter `item => item.name && item.name.length > 2` applied at
the end of `parseOCRResults`: the name must be truthy (non-empty) and
its raw, untrimmed length must exceed 2. -/
def nameFilterPred (item : DraftItem) : Bool :=
  item.name ≠ "" && item.name.length > 2

/-- Embeds `parseOCRResults` (`server/src/routes/ocr.ts` lines
201-238): use the structured path when the structured array is
non-empty, otherwise the manual text fallback; the final name filter
runs after the `try`/`catch`, so it also applies to a prefix saved
before an extraction exception. -/
def parseOCRResults (ocrData : OCRPayload) (menuType : MenuType) (now : Nat) :
    List DraftItem :=
  let structuredData := payloadStructured ocrData
  let items :=
    if structuredData.length > 0 then goStructured menuType now 0 structuredData
    else parseTextMenu (payloadText ocrData) menuType now
  items.filter nameFilterPred

/-- The row inserted into the `menu_updates` audit table by
`DatabaseService.logMenuUpdate` (the `id` and `created_at` columns are
store-assigned / clock-derived and elided). -/
structure MenuUpdateRecord where
  user_id : String
  menu_type : String
  operation : String
  items_count : Nat
  item_ids : List String
deriving DecidableEq, Repr

namespace DatabaseService

/-- Embeds `DatabaseService.logMenuUpdate`
(`server/src/services/database.ts` lines 153-168): the insert outcome
is an oracle; a failure is caught, logged and swallowed, so the method
itself never throws. -/
def logMenuUpdate (_update : MenuUpdateRecord)
    (insertResult : Except String Unit) : Except String Unit :=
  match insertResult with
  | .ok _ => .ok ()
  | .error _ => .ok ()

/-- Result of a bulk upsert: the value returned (or error thrown) to
the caller, together with the audit rows whose insertion was attempted. -/
structure BulkUpsertOutcome where
  result : Except String (List DraftItem)
  auditAttempts : List MenuUpdateRecord
deriving Repr

/-- Embeds `DatabaseService.bulkUpsertMenuItems`
(`server/src/services/database.ts` lines 109-132).  The storage upsert
and the audit insert are oracles.  If the upsert fails, the error is
rethrown and no audit row is attempted.  On upsert success one audit
row `{operation: 'bulk_update', changes: {items_count, items ids}}` is
attempted via `logMenuUpdate`; were that call to throw, the
surrounding `catch` would rethrow, but `logMenuUpdate` never throws. -/
def bulkUpsertMenuItems (items : List DraftItem) (userId : String)
    (menuType : String) (storage : Except String (List DraftItem))
    (auditInsert : Except String Unit) : BulkUpsertOutcome :=
  match storage with
  | .error e => { result := .error e, auditAttempts := [] }
  | .ok data =>
    let record : MenuUpdateRecord :=
      { user_id := userId, menu_type := menuType, operation := "bulk_update",
        items_count := items.length, item_ids := items.map (fun i => i.id) }
    match logMenuUpdate record auditInsert with
    | .error e => { result := .error e, auditAttempts := [record] }
    | .ok _ => { result := .ok data, auditAttempts := [record] }

end DatabaseService

/-- The uploaded file as the handler sees it (the contents are opaque
to the logic under verification). -/
structure UploadedFile where
  size : Nat
  mimetype : String
deriving DecidableEq, Repr

/-- Outcome of the `POST /process` handler: a thrown `createError`
(validation at status 400, upstream/persistence at status 500) or one
of the two JSON response shapes. -/
inductive HandlerResponse where
  | errorThrown (message : String) (status : Nat)
  | softFailure (message : String) (extractedText : String)
      (suggestions : List String)
  | success (menuType : String) (itemsProcessed : Nat) (itemsSaved : Nat)
deriving DecidableEq, Repr

/-- Oracles for the handler's external collaborators: image
preprocessing (`sharp`), the recognition HTTP call, the batch clock,
and the storage / audit outcomes consumed by the upsert. -/
structure PipelineEnv where
  preprocessOk : Bool
  ocrOk : Bool
  ocrPayload : OCRPayload
  now : Nat
  storage : Except String (List DraftItem)
  auditInsert : Except String Unit
deriving Repr

/-- What the handler did with a request: its response plus whether the
recognition collaborator and the persistence collaborator were
invoked. -/
structure HandlerResult where
  response : HandlerResponse
  recognitionCalled : Bool
  persistCalled : Bool
deriving DecidableEq, Repr

/-- Embeds the `POST /process` handler (`server/src/routes/ocr.ts`
lines 38-198).  Validation (`req.file` present, `menuType` in
`MENU_TYPE_MAPPING`) throws before the `try` block, so neither
preprocessing nor the recognition call happens on a validation
failure.  Then: preprocessing, the recognition call (non-ok status
throws after alerting), `parseOCRResults`, the zero-item soft-failure
return, and otherwise the bulk upsert whose failure is rethrown. -/
def processHandler (file : Option UploadedFile) (menuTypeStr : String)
    (userId : String) (env : PipelineEnv) : HandlerResult :=
  match file with
  | none =>
    { response := .errorThrown "No image file provided" 400,
      recognitionCalled := false, persistCalled := false }
  | some _ =>
    match MENU_TYPE_MAPPING menuTypeStr with
    | none =>
      { response := .errorThrown "Invalid or missing menu type" 400,
        recognitionCalled := false, persistCalled := false }
    | some menuType =>
      if !env.preprocessOk then
        { response := .errorThrown "Image preprocessing failed" 500,
          recognitionCalled := false, persistCalled := false }
      else if !env.ocrOk then
        { response := .errorThrown "OCR processing failed" 500,
          recognitionCalled := true, persistCalled := false }
      else
        let parsedItems := parseOCRResults env.ocrPayload menuType env.now
        if parsedItems.length = 0 then
          { response := .softFailure
              "No menu items could be extracted from the image"
              (jsOrStr env.ocrPayload.text "")
              ["Ensure the image is clear and well-lit",
               "Make sure text is not obscured or rotated",
               "Try a higher resolution image"],
            recognitionCalled := true, persistCalled := false }
        else
          let outcome := DatabaseService.bulkUpsertMenuItems parsedItems
            userId menuTypeStr env.storage env.auditInsert
          match outcome.result with
          | .error e =>
            { response := .errorThrown e 500,
              recognitionCalled := true, persistCalled := true }
          | .ok savedItems =>
            { response := .success menuTypeStr parsedItems.length
                savedItems.length,
              recognitionCalled := true, persistCalled := true }

/-- The draft list of `parseOCRResults` before its final name filter
(the `items` array as it stands at line 237 of the source, after the
`try`/`catch`). -/
def rawDrafts (ocrData : OCRPayload) (menuType : MenuType) (now : Nat) :
    List DraftItem :=
  let structuredData := payloadStructured ocrData
  if structuredData.length > 0 then goStructured menuType now 0 structuredData
  else parseTextMenu (payloadText ocrData) menuType now

/-- Whether a structured-array entry is well formed, i.e. its field
accesses succeed. -/
def entryGood : OCREntry → Bool
  | .record _ => true
  | .bad => false

/-- The effective explicit name of a structured record:
`name || title` under JS truthiness, `none` when both fields are
absent or empty. -/
def explicitName (r : StructuredRecord) : Option String :=
  jsOrOpt r.name r.title

/-- A structured record whose name is `"  a"`: three characters raw,
one character after trimming. -/
def padNameRec : StructuredRecord :=
  { name := some "  a", title := none, description := none,
    desc := none, price := .absent, category := none }

/-- A payload carrying `padNameRec` as its only structured record. -/
def padNamePayload : OCRPayload :=
  { text := none, extracted_text := none,
    structured_data := some [.record padNameRec], items := none }

/-- A well-formed structured record used to witness the filter
theorems on a concrete input. -/
def margaritaRec : StructuredRecord :=
  { name := some "Margarita", title := none, description := none,
    desc := none, price := .str "$12.00", category := none }

/-- A payload carrying `margaritaRec` as its only structured record. -/
def margaritaPayload : OCRPayload :=
  { text := none, extracted_text := none,
    structured_data := some [.record margaritaRec], items := none }

/-- An upstream payload with no text and no structured records: the
fallback path runs on `""` and extracts nothing. -/
def emptyPayload : OCRPayload :=
  { text := none, extracted_text := none, structured_data := none,
    items := none }

/-- A concrete oracle environment in which every collaborator
succeeds and the recognition payload is empty. -/
def sampleEnv : PipelineEnv :=
  { preprocessOk := true, ocrOk := true, ocrPayload := emptyPayload,
    now := 0, storage := .ok [], auditInsert := .ok () }

/-- The reference definition of PriceNormalizer exactly as the claim
states it, for comparison with `parsePrice`: a finite numeric input is
returned unchanged and a non-finite numeric input yields absent; an
absent input yields absent; a string is stripped of every character
other than digits and periods and parsed as a floating-point number,
absent when that is not a number. -/
def specPriceNormalizer : PriceInput → Option JSNumber
  | .num (.finite q) => some (.finite q)
  | .num _ => none
  | .absent => none
  | .str s =>
    match parseFloatDigitsDots (String.mk (s.toList.filter (fun c => c.isDigit || c = '.'))) with
    | none => none
    | some q => some (.finite q)

/-- The reference definition amended to what the code does on the
numeric case: any `typeof number` input, finite or not, is returned
unchanged. -/
def specPriceNormalizerAmended : PriceInput → Option JSNumber
  | .num x => some x
  | .absent => none
  | .str s =>
    match parseFloatDigitsDots (String.mk (s.toList.filter (fun c => c.isDigit || c = '.'))) with
    | none => none
    | some q => some (.finite q)

/-- The field obligations the spec places on every draft flushed by
the fallback text path: category, availability, empty tag set, and an
identifier of the manual template. -/
def fallbackDraftOk (mt : MenuType) (now : Nat) (d : DraftItem) : Prop :=
  d.category = mt.toStr ∧ d.available = true ∧ d.tags = [] ∧
    ∃ i, d.id = mkManualId mt.toStr now i

/-- Invariant of the fallback loop state: every accumulated item and
any item under construction satisfies `fallbackDraftOk`. -/
def fallbackInv (mt : MenuType) (now : Nat)
    (st : List DraftItem × Option DraftItem) : Prop :=
  (∀ d ∈ st.1, fallbackDraftOk mt now d) ∧
    ∀ d, st.2 = some d → fallbackDraftOk mt now d

/-- The draft the fallback path extracts from the single line
"Old Fashioned $14.00" with batch clock 7. -/
def oldFashionedDraft : DraftItem :=
  ⟨"tavern_menu_manual_7_0", "Old Fashioned", none, some (.finite 14),
    "tavern_menu", none, true, []⟩

/-- The non-empty (after trimming) lines the fallback loop iterates
over: `text.split('\n').filter(line => line.trim().length > 0)`. -/
def filteredLines (text : String) : List String :=
  (jsSplitLines text).filter (fun line => (jsTrim line).length > 0)

/-- Whether a line opens a new fallback item: the price regex matches
and the trimmed line is longer than 5 characters. -/
def isPriceLine (line : String) : Bool :=
  (findPriceMatch (jsTrim line).toList).isSome && (jsTrim line).length > 5

/-- The name contributed by a price line: the trimmed line with the
price pattern and everything after it stripped, re-trimmed. -/
def lineName (line : String) : String :=
  jsTrim (String.mk (nameBeforePrice (jsTrim line).toList))

/-- The identifier and name of a draft: the only data of the item
under construction that the fallback loop's control flow ever reads. -/
def draftKey (d : DraftItem) : String × String := (d.id, d.name)

/-- The identifiers emitted when the optional item under construction
(given by its identifier/name pair) is flushed. -/
def curFlushIds : Option (String × String) → List String
  | some pr => if pr.2 ≠ "" then [pr.1] else []
  | none => []

/-- Reference computation of the identifiers still to be emitted by
the fallback loop from the pending item's identifier/name pair and the
remaining enumerated lines: a price line flushes the pending item and
opens a new one carrying that line's own index and stripped name; any
other line leaves both unchanged; the end of input flushes the pending
item. -/
def pendingIds (mt : MenuType) (now : Nat) :
    Option (String × String) → List (Nat × String) → List String
  | cur, [] => curFlushIds cur
  | cur, p :: rest =>
    if isPriceLine p.2 then
      curFlushIds cur ++
        pendingIds mt now (some (mkManualId mt.toStr now p.1, lineName p.2)) rest
    else pendingIds mt now cur rest

/-- The predicate `nameFilterPred` spelled out as a proposition. -/
lemma nameFilterPred_iff (d : DraftItem) :
    nameFilterPred d = true ↔ d.name ≠ "" ∧ d.name.length > 2 := by
  simp [nameFilterPred]

/-- The function `truthyOpt` only ever yields a non-empty string. -/
lemma truthyOpt_eq_some (a : Option String) (s : String)
    (h : truthyOpt a = some s) : s ≠ "" := by
  cases a with
  | none => simp [truthyOpt] at h
  | some t =>
    by_cases ht : t = ""
    · simp [truthyOpt, ht] at h
    · simp [truthyOpt, ht] at h; subst h; exact ht

/-- A JS `a || b || null` value, when present, came from one of the
two operands via truthiness. -/
lemma jsOrOpt_eq_some (a b : Option String) (s : String)
    (h : jsOrOpt a b = some s) :
    truthyOpt a = some s ∨ truthyOpt b = some s := by
  unfold jsOrOpt at h
  cases hc : truthyOpt a with
  | some t => simp only [hc, Option.some.injEq] at h; exact Or.inl (by rw [h])
  | none => simp only [hc] at h; exact Or.inr h

/-- The effective explicit name is never the empty string. -/
lemma explicitName_ne_empty (r : StructuredRecord) (s : String)
    (h : explicitName r = some s) : s ≠ "" := by
  rcases jsOrOpt_eq_some r.name r.title s h with hc | hc
  · exact truthyOpt_eq_some r.name s hc
  · exact truthyOpt_eq_some r.title s hc

/-- The function `jsOrStr` is `getD` after truthiness normalization. -/
lemma jsOrStr_eq_getD (a : Option String) (b : String) :
    jsOrStr a b = (truthyOpt a).getD b := by
  cases a with
  | none => rfl
  | some s => by_cases h : s = "" <;> simp [jsOrStr, truthyOpt, h]

/-- The name assembled for a structured record is its effective
explicit name when one exists, and the positional placeholder
otherwise. -/
lemma extractRec_name (r : StructuredRecord) (mt : MenuType) (now i : Nat) :
    (extractRec mt now i r).name =
      (explicitName r).getD ("Item " ++ toString (i + 1)) := by
  show jsOrStr r.name (jsOrStr r.title ("Item " ++ toString (i + 1))) = _
  rw [jsOrStr_eq_getD, jsOrStr_eq_getD]
  unfold explicitName jsOrOpt
  cases truthyOpt r.name with
  | some s => rfl
  | none => rfl

/-- The length of a placeholder name `"Item <k>"` always exceeds 2. -/
lemma placeholder_length (k : Nat) : ("Item " ++ toString k).length > 2 := by
  have hd : ("Item " ++ toString k).data = "Item ".data ++ (toString k).data :=
    String.data_append ..
  show 2 < ("Item " ++ toString k).data.length
  rw [hd, List.length_append]
  have h5 : "Item ".data.length = 5 := rfl
  omega

/-- C5 counterexample: on the non-finite number `NaN` the code returns
`NaN` unchanged (`typeof NaN === 'number'` and there is no finiteness
test), while the claim's reference definition yields absent. -/
theorem parsePrice_nan_cex :
    parsePrice (.num .nan) = some .nan ∧
    specPriceNormalizer (.num .nan) = none ∧
    parsePrice (.num .nan) ≠ specPriceNormalizer (.num .nan) := by
  refine ⟨rfl, rfl, ?_⟩
  decide

/-- C5 amended: PriceNormalizer equals the reference definition in
which every numeric input (finite or not) is returned unchanged; the
string, absent and example clauses of the claim hold as stated:
"$14.00" maps to 14, "" to absent, the number 12 to 12, "N/A" to
absent. -/
theorem parsePrice_spec :
    (∀ x, parsePrice x = specPriceNormalizerAmended x) ∧
    parsePrice (.str "$14.00") = some (.finite 14) ∧
    parsePrice (.str "") = none ∧
    parsePrice (.num (.finite 12)) = some (.finite 12) ∧
    parsePrice (.str "N/A") = none := by
  refine ⟨?_, by decide, by decide, rfl, by decide⟩
  intro x
  cases x with
  | num x => rfl
  | absent => rfl
  | str s =>
    by_cases h : s = ""
    · subst h; rfl
    · simp only [parsePrice, specPriceNormalizerAmended, jsParseFloat, if_neg h]
      cases hp : parseFloatDigitsDots
          (String.mk (s.toList.filter (fun c => c.isDigit || c = '.'))) with
      | none => rfl
      | some q => rfl

/-- C7 counterexample: the lowercased text "estate reserve cabernet "
does not contain the substring "red", so the wine-list classification
of "Estate Reserve Cabernet" yields only ["reserve"]; the claimed tag
"red" is absent. -/
theorem determineTags_cabernet_cex :
    determineTags (some "Estate Reserve Cabernet") none .wine_list = ["reserve"] ∧
    "red" ∉ determineTags (some "Estate Reserve Cabernet") none .wine_list := by
  constructor
  · decide
  · decide

/-- C7 amended: the wine-list classification of "Estate Reserve
Cabernet" includes "reserve" but not "red" (the text has no "red"
substring); the cocktail half of the claim holds as stated:
"simple gin fizz" under signature_cocktails includes "signature" and
not "premium". -/
theorem determineTags_examples :
    "reserve" ∈ determineTags (some "Estate Reserve Cabernet") none .wine_list ∧
    "red" ∉ determineTags (some "Estate Reserve Cabernet") none .wine_list ∧
    "signature" ∈ determineTags (some "simple gin fizz") none .signature_cocktails ∧
    "premium" ∉ determineTags (some "simple gin fizz") none .signature_cocktails := by
  refine ⟨?_, ?_, ?_, ?_⟩ <;> decide

/-- C6: on the two-line text "Old Fashioned $14.00" / "House bourbon,
bitters, and orange peel", the text-line extractor yields exactly one
draft, with name "Old Fashioned", price 14.00 and the second line as
its description, for every target category and batch clock. -/
theorem parseTextMenu_oldFashioned (mt : MenuType) (now : Nat) :
    (parseTextMenu "Old Fashioned $14.00\nHouse bourbon, bitters, and orange peel"
        mt now).map (fun d => (d.name, d.price, d.description)) =
    [("Old Fashioned", some (.finite 14),
      some "House bourbon, bitters, and orange peel")] := by
  rfl

/-- C2: whenever the storage upsert succeeds with rows `data`, the
coordinator attempts exactly one audit record — operation
"bulk_update", carrying the batch size and the list of item ids — and
returns `data` whatever the audit insert's outcome (audit failure is
swallowed inside `logMenuUpdate`). -/
theorem bulkUpsert_audit (items : List DraftItem) (userId menuType : String)
    (data : List DraftItem) (auditInsert : Except String Unit) :
    DatabaseService.bulkUpsertMenuItems items userId menuType
        (.ok data) auditInsert =
      { result := .ok data,
        auditAttempts := [MenuUpdateRecord.mk userId menuType "bulk_update"
          items.length (items.map (fun i => i.id))] } := by
  cases auditInsert <;> rfl

/-- C1 counterexample: a structured record named `"  a"` (raw length 3,
trimmed length 1) survives the parser's filter, so the output contains
a draft whose trimmed name has length ≤ 2 — the filter tests the raw,
untrimmed length. -/
theorem resultParser_untrimmed_cex :
    (parseOCRResults padNamePayload .tavern_menu 0).map DraftItem.name = ["  a"] ∧
    (jsTrim "  a").length = 1 := by
  constructor
  · decide
  · decide

/-- C1 amended: every draft in the parser's output has a present
(non-empty) name of raw length > 2; the output is an order-preserving
subsequence of the drafts produced by the extractors, and every
extracted draft with raw name length > 2 is kept. -/
theorem resultParser_name_filter (p : OCRPayload) (mt : MenuType) (now : Nat) :
    (∀ d ∈ parseOCRResults p mt now, d.name ≠ "" ∧ d.name.length > 2) ∧
    List.Sublist (parseOCRResults p mt now) (rawDrafts p mt now) ∧
    (∀ d ∈ rawDrafts p mt now, d.name ≠ "" → d.name.length > 2 →
      d ∈ parseOCRResults p mt now) := by
  have hE : parseOCRResults p mt now = (rawDrafts p mt now).filter nameFilterPred := rfl
  refine ⟨?_, ?_, ?_⟩
  · intro d hd
    rw [hE] at hd
    exact (nameFilterPred_iff d).mp (List.mem_filter.mp hd).2
  · rw [hE]; exact List.filter_sublist _
  · intro d hd h1 h2
    rw [hE]
    exact List.mem_filter.mpr ⟨hd, (nameFilterPred_iff d).mpr ⟨h1, h2⟩⟩

/-- C1 witness: instantiating the filter theorem on the concrete
Margarita payload and its single output draft. -/
theorem resultParser_name_filter_witness :
    (extractRec .wine_list 0 0 margaritaRec).name ≠ "" ∧
    (extractRec .wine_list 0 0 margaritaRec).name.length > 2 :=
  (resultParser_name_filter margaritaPayload .wine_list 0).1
    (extractRec .wine_list 0 0 margaritaRec) (by decide)

/-- C9: the parser is total: its value is always the name filter
applied to the extracted drafts; on the structured path, the loop over
an array with a malformed entry yields exactly the drafts of the
well-formed prefix before that entry (the exception aborts the loop,
the `catch` swallows it, and the accumulated prefix flows into the
filter), each well-formed record contributing in order with its
index. -/
theorem resultParser_exception_safety :
    (∀ p mt now, parseOCRResults p mt now =
      (rawDrafts p mt now).filter nameFilterPred) ∧
    (∀ (mt : MenuType) (now i : Nat) (pre rest : List OCREntry),
      goStructured mt now i (pre ++ OCREntry.bad :: rest) =
        goStructured mt now i pre) ∧
    (∀ (mt : MenuType) (now i : Nat) (r : StructuredRecord) (rest : List OCREntry),
      goStructured mt now i (OCREntry.record r :: rest) =
        extractRec mt now i r :: goStructured mt now (i + 1) rest) := by
  refine ⟨fun p mt now => rfl, ?_, fun mt now i r rest => rfl⟩
  intro mt now i pre rest
  induction pre generalizing i with
  | nil => rfl
  | cons e t ih =>
    cases e with
    | record r =>
      show extractRec mt now i r :: goStructured mt now (i + 1) (t ++ _ :: rest) = _
      rw [ih]
      rfl
    | bad => rfl

/-- C10: a structured record whose name and title are both absent or
empty receives the placeholder name `"Item <1-based position>"`, which
always passes the name filter; consequently a structured draft is
dropped only when the record supplied an effective explicit name
(name, else title) of length ≤ 2, and that name is the draft's name. -/
theorem structured_never_nameless (r : StructuredRecord) (mt : MenuType)
    (now i : Nat) :
    (explicitName r = none →
      (extractRec mt now i r).name = "Item " ++ toString (i + 1) ∧
      nameFilterPred (extractRec mt now i r) = true) ∧
    (nameFilterPred (extractRec mt now i r) = false →
      ∃ s, explicitName r = some s ∧ s.length ≤ 2 ∧
        (extractRec mt now i r).name = s) := by
  have hname := extractRec_name r mt now i
  have hph : explicitName r = none →
      (extractRec mt now i r).name = "Item " ++ toString (i + 1) := by
    intro h; rw [h] at hname; simpa using hname
  have hpred : explicitName r = none →
      nameFilterPred (extractRec mt now i r) = true := by
    intro h
    have hn := hph h
    have hlen : (extractRec mt now i r).name.length > 2 := by
      rw [hn]; exact placeholder_length (i + 1)
    have hne : (extractRec mt now i r).name ≠ "" := by
      intro he; rw [he] at hlen; simp at hlen
    exact (nameFilterPred_iff _).mpr ⟨hne, hlen⟩
  refine ⟨fun h => ⟨hph h, hpred h⟩, ?_⟩
  intro h
  cases hc : explicitName r with
  | none => rw [hpred hc] at h; cases h
  | some s =>
    rw [hc] at hname
    simp only [Option.getD_some] at hname
    refine ⟨s, rfl, ?_, hname⟩
    have hs : s ≠ "" := explicitName_ne_empty r s hc
    by_contra hgt
    push_neg at hgt
    have : nameFilterPred (extractRec mt now i r) = true :=
      (nameFilterPred_iff _).mpr ⟨by rw [hname]; exact hs, by rw [hname]; omega⟩
    rw [this] at h; cases h

/-- C10 witness: a record with empty title and no name, at 0-based
position 4, yields the placeholder "Item 5" and passes the filter. -/
theorem structured_never_nameless_witness :
    (extractRec .wine_list 0 4
        ⟨none, some "", none, none, .absent, none⟩).name =
      "Item " ++ toString (4 + 1) ∧
    nameFilterPred (extractRec .wine_list 0 4
        ⟨none, some "", none, none, .absent, none⟩) = true :=
  (structured_never_nameless ⟨none, some "", none, none, .absent, none⟩
    .wine_list 0 4).1 (by decide)

/-- C4: when validation, preprocessing and the recognition call
succeed but the parser yields zero drafts, the handler returns (does
not throw) the soft-failure response — success=false, the fixed
message, `ocrData.text || ''` as the extracted text, and the fixed
three remediation suggestions — and the persistence coordinator is
never invoked. -/
theorem orchestrator_softFailure (f : UploadedFile)
    (menuTypeStr userId : String) (mt : MenuType) (env : PipelineEnv)
    (hmt : MENU_TYPE_MAPPING menuTypeStr = some mt)
    (hpre : env.preprocessOk = true) (hocr : env.ocrOk = true)
    (hempty : parseOCRResults env.ocrPayload mt env.now = []) :
    processHandler (some f) menuTypeStr userId env =
      { response := .softFailure
          "No menu items could be extracted from the image"
          (jsOrStr env.ocrPayload.text "")
          ["Ensure the image is clear and well-lit",
           "Make sure text is not obscured or rotated",
           "Try a higher resolution image"],
        recognitionCalled := true, persistCalled := false } := by
  simp [processHandler, hmt, hpre, hocr, hempty]

/-- C4 witness: a concrete request whose recognition payload is empty. -/
theorem orchestrator_softFailure_witness :
    processHandler (some ⟨1000, "image/jpeg"⟩) "wine_list" "u2" sampleEnv =
      { response := .softFailure
          "No menu items could be extracted from the image"
          (jsOrStr sampleEnv.ocrPayload.text "")
          ["Ensure the image is clear and well-lit",
           "Make sure text is not obscured or rotated",
           "Try a higher resolution image"],
        recognitionCalled := true, persistCalled := false } :=
  orchestrator_softFailure ⟨1000, "image/jpeg"⟩ "wine_list" "u2" .wine_list
    sampleEnv rfl rfl rfl (by decide)

/-- Flushing preserves the fallback field obligations. -/
lemma flushCurrent_ok (mt : MenuType) (now : Nat) (items : List DraftItem)
    (cur : Option DraftItem)
    (h1 : ∀ d ∈ items, fallbackDraftOk mt now d)
    (h2 : ∀ d, cur = some d → fallbackDraftOk mt now d) :
    ∀ d ∈ flushCurrent items cur, fallbackDraftOk mt now d := by
  cases cur with
  | none => exact h1
  | some c =>
    by_cases hn : c.name ≠ ""
    · simp only [flushCurrent, if_pos hn]
      intro d hd
      rcases List.mem_append.mp hd with hd | hd
      · exact h1 d hd
      · rw [List.mem_singleton.mp hd]; exact h2 c rfl
    · simp only [flushCurrent, if_neg hn]; exact h1

/-- One step of the fallback loop preserves the invariant. -/
lemma stepLine_ok (mt : MenuType) (now : Nat) (p : Nat × String)
    (st : List DraftItem × Option DraftItem) (h : fallbackInv mt now st) :
    fallbackInv mt now (stepLine mt now st p) := by
  obtain ⟨h1, h2⟩ := h
  cases hm : findPriceMatch (jsTrim p.2).toList with
  | some cap =>
    by_cases hl : (jsTrim p.2).length > 5
    · simp only [stepLine, hm, hl, if_true]
      refine ⟨flushCurrent_ok mt now st.1 st.2 h1 h2, ?_⟩
      intro d hd
      cases hd
      exact ⟨rfl, rfl, rfl, ⟨p.1, rfl⟩⟩
    · simp only [stepLine, hm, hl, if_false]
      exact ⟨h1, h2⟩
  | none =>
    simp only [stepLine, hm]
    cases hc : st.2 with
    | none => exact ⟨h1, h2⟩
    | some cur =>
      by_cases hl : (jsTrim p.2).length > 10
      · simp only [hl, if_true]
        refine ⟨h1, ?_⟩
        intro d hd
        cases hd
        have hcur := h2 cur hc
        exact ⟨hcur.1, hcur.2.1, hcur.2.2.1, hcur.2.2.2⟩
      · simp only [hl, if_false]
        exact ⟨h1, h2⟩

/-- The whole fallback loop preserves the invariant. -/
lemma foldl_stepLine_ok (mt : MenuType) (now : Nat)
    (l : List (Nat × String)) :
    ∀ st, fallbackInv mt now st →
      fallbackInv mt now (l.foldl (stepLine mt now) st) := by
  induction l with
  | nil => exact fun st h => h
  | cons p t ih => exact fun st h => ih _ (stepLine_ok mt now p st h)

/-- Unfolding `pendingIds` at a price line. -/
lemma pendingIds_cons_true (mt : MenuType) (now : Nat)
    (cur : Option (String × String)) (p : Nat × String)
    (rest : List (Nat × String)) (hp : isPriceLine p.2 = true) :
    pendingIds mt now cur (p :: rest) =
      curFlushIds cur ++
        pendingIds mt now (some (mkManualId mt.toStr now p.1, lineName p.2)) rest := by
  simp [pendingIds, hp]

/-- Unfolding `pendingIds` at a non-price line. -/
lemma pendingIds_cons_false (mt : MenuType) (now : Nat)
    (cur : Option (String × String)) (p : Nat × String)
    (rest : List (Nat × String)) (hp : isPriceLine p.2 = false) :
    pendingIds mt now cur (p :: rest) = pendingIds mt now cur rest := by
  simp [pendingIds, hp]

/-- Flushing appends exactly the pending item's flush identifiers. -/
lemma flushCurrent_map_id (items : List DraftItem) (cur : Option DraftItem) :
    (flushCurrent items cur).map DraftItem.id =
      items.map DraftItem.id ++ curFlushIds (cur.map draftKey) := by
  cases cur with
  | none => simp [flushCurrent, curFlushIds]
  | some c =>
    by_cases hn : c.name ≠ ""
    · simp [flushCurrent, hn, curFlushIds, draftKey]
    · simp [flushCurrent, hn, curFlushIds, draftKey]

/-- The identifiers of the fallback loop's final flushed output are
the starting items' identifiers followed by `pendingIds` of the
pending pair and the remaining lines. -/
lemma foldl_stepLine_map_id (mt : MenuType) (now : Nat)
    (l : List (Nat × String)) :
    ∀ (items : List DraftItem) (cur : Option DraftItem),
      (flushCurrent ((l.foldl (stepLine mt now) (items, cur)).1)
          ((l.foldl (stepLine mt now) (items, cur)).2)).map DraftItem.id =
        items.map DraftItem.id ++ pendingIds mt now (cur.map draftKey) l := by
  induction l with
  | nil =>
    intro items cur
    exact flushCurrent_map_id items cur
  | cons p rest ih =>
    intro items cur
    simp only [List.foldl_cons]
    cases hm : findPriceMatch (jsTrim p.2).toList with
    | some cap =>
      by_cases hl : (jsTrim p.2).length > 5
      · have hp : isPriceLine p.2 = true := by
          unfold isPriceLine
          rw [hm]
          simp [hl]
        simp only [stepLine, hm, hl, if_true]
        rw [ih]
        rw [flushCurrent_map_id, List.append_assoc]
        rw [pendingIds_cons_true mt now _ p rest hp]
        rfl
      · have hp : isPriceLine p.2 = false := by
          unfold isPriceLine
          rw [hm]
          simp [hl]
        simp only [stepLine, hm, hl, if_false]
        rw [ih]
        rw [pendingIds_cons_false mt now _ p rest hp]
    | none =>
      have hp : isPriceLine p.2 = false := by
        unfold isPriceLine
        rw [hm]
        simp
      cases cur with
      | none =>
        simp only [stepLine, hm]
        rw [ih]
        rw [pendingIds_cons_false mt now _ p rest hp]
      | some c =>
        by_cases hl : (jsTrim p.2).length > 10
        · simp only [stepLine, hm, hl, if_true]
          rw [ih]
          rw [pendingIds_cons_false mt now _ p rest hp]
          rfl
        · simp only [stepLine, hm, hl, if_false]
          rw [ih]
          rw [pendingIds_cons_false mt now _ p rest hp]

/-- A pending item always flushes eventually: at the next price line
or at the end of input. -/
lemma pendingIds_eq_flush (mt : MenuType) (now : Nat)
    (l : List (Nat × String)) :
    ∀ cur, pendingIds mt now cur l =
      curFlushIds cur ++ pendingIds mt now none l := by
  induction l with
  | nil => intro cur; simp [pendingIds, curFlushIds]
  | cons p rest ih =>
    intro cur
    cases hp : isPriceLine p.2 with
    | true =>
      rw [pendingIds_cons_true mt now cur p rest hp,
        pendingIds_cons_true mt now none p rest hp]
      simp [curFlushIds]
    | false =>
      rw [pendingIds_cons_false mt now cur p rest hp,
        pendingIds_cons_false mt now none p rest hp]
      exact ih cur

/-- With no pending item, the emitted identifiers are exactly the
manual-template identifiers of the item-opening price lines (price
match, trimmed length > 5, non-empty stripped name), each carrying its
own line index, in line order. -/
lemma pendingIds_none (mt : MenuType) (now : Nat) :
    ∀ l : List (Nat × String),
      pendingIds mt now none l =
        (l.filter (fun p => isPriceLine p.2 && lineName p.2 ≠ "")).map
          (fun p => mkManualId mt.toStr now p.1) := by
  intro l
  induction l with
  | nil => rfl
  | cons p rest ih =>
    cases hp : isPriceLine p.2 with
    | false =>
      rw [pendingIds_cons_false mt now none p rest hp, ih]
      simp [List.filter_cons, hp]
    | true =>
      rw [pendingIds_cons_true mt now none p rest hp, pendingIds_eq_flush, ih]
      by_cases hn : lineName p.2 ≠ ""
      · simp [curFlushIds, hn, List.filter_cons, hp]
      · simp [curFlushIds, hn, List.filter_cons, hp]

/-- C8 counterexample: on a text whose second price line is preceded
by a description line, the two flushed items carry identifier indices
0 and 2 — the indices of their price lines among the non-empty lines —
while their flush-order positions are consecutive (first and second),
so no consistent flush-order numbering produces these identifiers. -/
theorem fallback_id_cex :
    (parseTextMenu
        "Alpha Dog $10.00\nA very tasty description line\nBeta Cat $12.00"
        .tavern_menu 0).length = 2 ∧
    (parseTextMenu
        "Alpha Dog $10.00\nA very tasty description line\nBeta Cat $12.00"
        .tavern_menu 0).map DraftItem.id =
      ["tavern_menu_manual_0_0", "tavern_menu_manual_0_2"] := by
  constructor
  · decide
  · decide

/-- C8 amended: every item flushed by the fallback path receives the
target category, `available = true`, an empty tag set, and an
identifier built from the target category, the batch timestamp, and
the index of the item's opening price line within the non-empty line
sequence: the output's identifier list is exactly the manual-template
identifiers of the item-opening price lines (price match, trimmed
length > 5, non-empty stripped name), each carrying its own line
index, in line order — an index that can exceed the item's flush-order
position. -/
theorem fallback_item_fields (text : String) (mt : MenuType) (now : Nat) :
    (∀ d ∈ parseTextMenu text mt now,
      d.category = mt.toStr ∧ d.available = true ∧ d.tags = [] ∧
        ∃ i, d.id = mkManualId mt.toStr now i) ∧
    (parseTextMenu text mt now).map DraftItem.id =
      ((filteredLines text).enum.filter
          (fun p => isPriceLine p.2 && lineName p.2 ≠ "")).map
        (fun p => mkManualId mt.toStr now p.1) := by
  constructor
  · intro d hd
    have hbase : fallbackInv mt now ([], none) := by
      refine ⟨?_, ?_⟩
      · intro d hd
        simp at hd
      · intro d hd
        simp at hd
    have hinv := foldl_stepLine_ok mt now
      ((jsSplitLines text).filter (fun line => (jsTrim line).length > 0)).enum
      ([], none) hbase
    exact flushCurrent_ok mt now _ _ hinv.1 hinv.2 d hd
  · have h := foldl_stepLine_map_id mt now (filteredLines text).enum [] none
    have hnone : Option.map draftKey (none : Option DraftItem) = none := rfl
    rw [hnone, pendingIds_none] at h
    refine h.trans ?_
    simp

/-- C8 witness: on "Old Fashioned $14.00" at batch clock 7, the single
draft satisfies the field obligations and the identifier list is the
manual id of the opening price line at index 0. -/
theorem fallback_item_fields_witness :
    (oldFashionedDraft.category = MenuType.tavern_menu.toStr ∧
      oldFashionedDraft.available = true ∧ oldFashionedDraft.tags = [] ∧
      ∃ i, oldFashionedDraft.id = mkManualId MenuType.tavern_menu.toStr 7 i) ∧
    (parseTextMenu "Old Fashioned $14.00" .tavern_menu 7).map DraftItem.id =
      ["tavern_menu_manual_7_0"] :=
  ⟨(fallback_item_fields "Old Fashioned $14.00" .tavern_menu 7).1
      oldFashionedDraft (by decide),
    ((fallback_item_fields "Old Fashioned $14.00" .tavern_menu 7).2).trans
      (by decide)⟩
